import Mathlib

/-!
Shallow embedding of the CarbonAware-Redeployment scripts.

The repository contains three script variants relevant to the claims:
  * `redeploy_auto.py`        (namespace `RedeployAuto`)
  * `redeploy-auto.py`        (namespace `RedeployAutoHyphen`)
  * `redeploy_interactive.py` (namespace `RedeployInteractive`)

External effects (AWS CLI calls, Terraform runs, HTTP requests, DNS updates)
are modelled as an `Action` trace; the responses of the external world that
the scripts branch on (carbon intensities, existing instances, security
groups, Terraform outputs, health-check outcome, environment variables) are
collected in an `Env` record.  Carbon intensities are Python floats that may
be `float('inf')` (returned by `get_carbon_intensity` on any error); they
are modelled as `WithTop ℚ` with `⊤` playing the role of infinity.
-/

namespace CarbonAware

/-- The three AWS regions of the static `AWS_REGIONS` mapping. -/
inductive Region where
  | euWest1
  | euWest2
  | euCentral1
deriving DecidableEq, Fintype

/-- The region identifier string (the `AWS_REGIONS` key). -/
def Region.key : Region → String
  | .euWest1 => "eu-west-1"
  | .euWest2 => "eu-west-2"
  | .euCentral1 => "eu-central-1"

/-- The Electricity Maps zone code associated to the region (`AWS_REGIONS` value). -/
def Region.zone : Region → String
  | .euWest1 => "IE"
  | .euWest2 => "GB"
  | .euCentral1 => "DE"

/-- The regions in the insertion order of the `AWS_REGIONS` dict. -/
def regionList : List Region := [.euWest1, .euWest2, .euCentral1]

/-- The keys of `AWS_REGIONS`, for the string-level functions that validate
their `region` argument. -/
def awsRegionKeys : List String := ["eu-west-1", "eu-west-2", "eu-central-1"]

/-- Carbon intensity as returned by `get_carbon_intensity`: a float, with
`float('inf')` (here `⊤`) returned on any API error. -/
abbrev Intensity := WithTop ℚ

/-- Python's `min(iterable, key=f)` over a nonempty iterable `best :: rest`:
scan left to right keeping the current minimum, replacing it only when a
strictly smaller key appears (so ties keep the earliest element). -/
def minByKey {α β : Type} [LinearOrder β] (f : α → β) : α → List α → α
  | best, [] => best
  | best, r :: rest => minByKey f (if f r < f best then r else best) rest

/-- The responses of the external world during one run of a script. -/
structure Env where
  /-- `get_carbon_intensity` result for each region's zone (`⊤` = `float('inf')`). -/
  intensity : Region → Intensity
  /-- `get_old_instances region`: running instances tagged `myapp-instance`. -/
  oldInstances : Region → List String
  /-- `find_old_sgs region`: security groups named `myapp_sg_*`. -/
  oldSgs : Region → List String
  /-- `get_terraform_output "instance_public_ip"` (`none` = missing/empty). -/
  tfIp : Option String
  /-- `get_terraform_output "instance_id"` (`none` = missing/empty). -/
  tfId : Option String
  /-- Outcome of `wait_for_http_ok` on the new instance's IP. -/
  httpOk : Bool
  /-- The `DOMAIN_NAME` environment variable (`MYAPP_DOMAIN`). -/
  domain : String
  /-- The `HOSTED_ZONE_ID` environment variable. -/
  zoneId : String

/-- Externally visible actions a script run performs. -/
inductive Action where
  /-- A carbon-intensity request to the Electricity Maps API for a zone. -/
  | queryCarbon (zone : String)
  /-- `update_tfvars region`: overwrite `terraform.tfvars`. -/
  | updateTfvars (r : Region)
  /-- `run_terraform`: `terraform init` + `terraform apply` for the region. -/
  | runTerraform (r : Region)
  /-- `terminate_instance instId region`. -/
  | terminate (instId : String) (r : Region)
  /-- Deletion of one security group in a region. -/
  | deleteSG (sgId : String) (r : Region)
  /-- `update_dns_record`: Route53 A-record upsert. -/
  | updateDNS (domain : String) (ip : String)
deriving DecidableEq

/-- Is the action a carbon-intensity API request? -/
def Action.isQuery : Action → Bool
  | .queryCarbon _ => true
  | _ => false

/-- Is the action an instance termination? -/
def Action.isTerminate : Action → Bool
  | .terminate _ _ => true
  | _ => false

/-- Is the action a security-group deletion? -/
def Action.isDeleteSG : Action → Bool
  | .deleteSG _ _ => true
  | _ => false

/-- Number of carbon-intensity API requests in a trace. -/
def countQueries (l : List Action) : Nat := l.countP (fun a => a.isQuery)

/-- `True` results of `Except` (a non-raising call). -/
def exceptIsOk {ε α : Type} : Except ε α → Bool
  | .ok _ => true
  | .error _ => false

/-- The `terraform.tfvars` content written by every `update_tfvars` variant:
exactly two assignments, `aws_region` and `deployment_id` (the integer Unix
timestamp `now` at call time, written as a string). -/
def tfvarsContent (region : String) (now : Nat) : List (String × String) :=
  [("aws_region", region), ("deployment_id", toString now)]

namespace RedeployAuto

/-!  Embedding of `redeploy_auto.py`.  -/

/-- `find_best_region` (lines 107-129): query each region's zone and return
the dict key of minimal carbon intensity (`min(carbon_data, key=carbon_data.get)`). -/
def find_best_region (f : Region → Intensity) : Region :=
  minByKey f .euWest1 [.euWest2, .euCentral1]

/-- The `api_accessible` flag of `deploy` (lines 606-613): starts `True`, set
to `False` whenever a fetched intensity equals `float('inf')`. -/
def apiAccessible (env : Env) : Bool :=
  regionList.foldl (fun acc r => if env.intensity r = ⊤ then false else acc) true

/-- The `best_region` computed by `deploy` (lines 620-635): the minimum-key
region when the API was reachable, the fixed default `eu-west-2` otherwise. -/
def bestRegion (env : Env) : Region :=
  if apiAccessible env then minByKey env.intensity .euWest1 [.euWest2, .euCentral1]
  else .euWest2

/-- The `deployments` dict comprehension of `deploy` (lines 638-641): regions
with a nonempty `get_old_instances` result, in `AWS_REGIONS` order. -/
def deploymentsMap (env : Env) : List (Region × List String) :=
  regionList.filterMap fun r =>
    if env.oldInstances r = [] then none else some (r, env.oldInstances r)

/-- `cleanup_security_groups` (lines 459-474): delete the groups returned by
`find_old_sgs` via `remove_security_groups` when there are any. -/
def cleanup_security_groups (env : Env) (r : Region) : List Action :=
  if env.oldSgs r = [] then []
  else (env.oldSgs r).map fun sg => Action.deleteSG sg r

/-- `cleanup_old_instances` (lines 448-456): for each old region other than
`current`, terminate each instance and then clean up that region's security
groups (the SG cleanup runs once per instance, as in the source loop). -/
def cleanup_old_instances (env : Env) (old : List (Region × List String))
    (current : Region) : List Action :=
  old.flatMap fun p =>
    if p.1 = current then []
    else p.2.flatMap fun inst =>
      Action.terminate inst p.1 :: cleanup_security_groups env p.1

/-- `handle_no_old_instances` (lines 554-596): sweep every region for
orphaned `myapp_sg_*` groups and remove them. -/
def handle_no_old_instances (env : Env) : List Action :=
  regionList.flatMap fun r =>
    if env.oldSgs r = [] then []
    else (env.oldSgs r).map fun sg => Action.deleteSG sg r

/-- `deploy_to_region` (lines 477-551): write tfvars, run Terraform, read the
Terraform outputs, health-check, optionally update DNS, then clean up. -/
def deploy_to_region (env : Env) (region : Region)
    (old : List (Region × List String)) : List Action :=
  Action.updateTfvars region :: Action.runTerraform region ::
    match env.tfIp, env.tfId with
    | some ip, some _ =>
      if env.httpOk then
        if env.domain = "" ∨ env.zoneId = "" then []
        else
          Action.updateDNS env.domain ip ::
            (if old = [] then handle_no_old_instances env
             else cleanup_old_instances env old region)
      else []
    | _, _ => []

/-- `deploy` (lines 599-678): fetch the three intensities, pick the target
region, check existing deployments, return early if the target region already
holds an instance, otherwise hand off to `deploy_to_region`. -/
def deploy (env : Env) : List Action :=
  let queries := regionList.map fun r => Action.queryCarbon r.zone
  let best := bestRegion env
  let deps := deploymentsMap env
  if deps.any (fun p => p.1 = best) then queries
  else queries ++ deploy_to_region env best deps

/-- String-level `update_tfvars` (lines 292-313): raise `ValueError` when the
region is not an `AWS_REGIONS` key, otherwise truncate `terraform.tfvars`
(mode `"w"`) and write the two assignments, discarding `prior`. -/
def update_tfvars (region : String) (now : Nat)
    (_prior : List (String × String)) : Except String (List (String × String)) :=
  if region ∈ awsRegionKeys then .ok (tfvarsContent region now)
  else .error ("Invalid region: " ++ region)

/-- String-level `remove_security_groups` (lines 257-289): raise `ValueError`
when the region is not an `AWS_REGIONS` key, otherwise delete each group
returned by `find_old_sgs` (here the `sgs` oracle). -/
def remove_security_groups (region : String) (sgs : String → List String) :
    Except String (List String) :=
  if region ∈ awsRegionKeys then .ok (sgs region)
  else .error ("Invalid region: " ++ region)

end RedeployAuto

namespace RedeployAutoHyphen

/-!  Embedding of `redeploy-auto.py` (the hyphenated, older non-interactive
variant).  -/

/-- `find_best_region` (lines 96-113): same minimum-key selection. -/
def find_best_region (f : Region → Intensity) : Region :=
  minByKey f .euWest1 [.euWest2, .euCentral1]

/-- `check_existing_deployments` (lines 142-154): regions with a nonempty
`get_old_instances` result, in `AWS_REGIONS` order. -/
def deploymentsMap (env : Env) : List (Region × List String) :=
  regionList.filterMap fun r =>
    if env.oldInstances r = [] then none else some (r, env.oldInstances r)

/-- `run_terraform` (lines 283-306): in this variant the function first calls
`remove_security_groups(deploy_region)` — deleting every `myapp_sg_*` group
in the target region — and only then runs `terraform init`/`apply`. -/
def run_terraform (env : Env) (r : Region) : List Action :=
  ((env.oldSgs r).map fun sg => Action.deleteSG sg r) ++ [Action.runTerraform r]

/-- The old-instance termination loop of `deploy` (lines 503-508): for each
deployed region other than `chosen`, terminate each instance and then remove
that region's security groups (once per instance). -/
def terminationLoop (env : Env) (deps : List (Region × List String))
    (chosen : Region) : List Action :=
  deps.flatMap fun p =>
    if p.1 ≠ chosen then
      p.2.flatMap fun inst =>
        Action.terminate inst p.1 ::
          ((env.oldSgs p.1).map fun sg => Action.deleteSG sg p.1)
    else []

/-- The post-provisioning tail of `deploy` shared by its two branches: read
the instance IP, health-check, optionally update DNS, then run `extra`
(the termination loop in the redeploy branch, nothing in the fresh-deploy
branch). -/
def postProvision (env : Env) (extra : List Action) : List Action :=
  match env.tfIp with
  | some ip =>
    if env.httpOk then
      (if env.domain ≠ "" ∧ env.zoneId ≠ "" then [Action.updateDNS env.domain ip]
       else []) ++ extra
    else []
  | none => []

/-- `deploy` (lines 407-517): `find_best_region` (three queries), existing
deployments, early return when the chosen region already holds an instance;
with no deployments, provision directly; otherwise re-query the API once per
deployed region to find the currently-best deployed region (`min` over
`deployments.keys()` keyed by `get_carbon_intensity`), skip when it already
is the chosen one, and otherwise provision and terminate the old instances. -/
def deploy (env : Env) : List Action :=
  let queries := regionList.map fun r => Action.queryCarbon r.zone
  let chosen := find_best_region env.intensity
  let deps := deploymentsMap env
  if deps.any (fun p => p.1 = chosen) then queries
  else
    match deps with
    | [] =>
      queries ++ Action.updateTfvars chosen :: run_terraform env chosen ++
        postProvision env []
    | d :: ds =>
      let depQueries := (d :: ds).map fun p => Action.queryCarbon p.1.zone
      let currentBest := minByKey env.intensity d.1 (ds.map fun p => p.1)
      if currentBest = chosen then queries ++ depQueries
      else
        queries ++ depQueries ++ Action.updateTfvars chosen ::
          run_terraform env chosen ++
          postProvision env (terminationLoop env (d :: ds) chosen)

/-- String-level `update_tfvars` (lines 262-280): no region validation at
all — this variant overwrites the file for any argument and `ValueError` is
never raised. -/
def update_tfvars (region : String) (now : Nat)
    (_prior : List (String × String)) : Except String (List (String × String)) :=
  .ok (tfvarsContent region now)

/-- String-level `remove_security_groups` (lines 240-259): no region
validation — the groups returned by `find_old_sgs` are deleted for any
argument and `ValueError` is never raised. -/
def remove_security_groups (region : String) (sgs : String → List String) :
    Except String (List String) :=
  .ok (sgs region)

end RedeployAutoHyphen

namespace RedeployInteractiveHyphen

/-!  Embedding of `redeploy-interactive.py` (the hyphenated, older
interactive variant): only the two region-taking mutations are needed, for
the validation claim.  -/

/-- String-level `update_tfvars` (lines 228-246): no region validation at
all — the file is overwritten for any argument and `ValueError` is never
raised. -/
def update_tfvars (region : String) (now : Nat)
    (_prior : List (String × String)) : Except String (List (String × String)) :=
  .ok (tfvarsContent region now)

/-- String-level `remove_security_groups` (lines 209-225): no region
validation — the groups returned by `find_old_sgs` are deleted for any
argument and `ValueError` is never raised. -/
def remove_security_groups (region : String) (sgs : String → List String) :
    Except String (List String) :=
  .ok (sgs region)

end RedeployInteractiveHyphen

namespace RedeployInteractive

/-!  Embedding of `redeploy_interactive.py`.  -/

/-- The inline cleanup loop of `deploy_to_region` (lines 489-494): for each
old region other than `region`, terminate each instance and then remove that
region's security groups (once per instance; this variant's
`remove_security_groups` does not validate its argument). -/
def cleanupOld (env : Env) (old : List (Region × List String))
    (region : Region) : List Action :=
  old.flatMap fun p =>
    if p.1 ≠ region then
      p.2.flatMap fun inst =>
        Action.terminate inst p.1 ::
          ((env.oldSgs p.1).map fun sg => Action.deleteSG sg p.1)
    else []

/-- `deploy_to_region` (lines 443-503): write tfvars, run Terraform, read the
two Terraform outputs (returning on either missing), health-check, return
when the domain or zone ID is unconfigured, update DNS, then clean up. -/
def deploy_to_region (env : Env) (region : Region)
    (old : List (Region × List String)) : List Action :=
  Action.updateTfvars region :: Action.runTerraform region ::
    match env.tfIp with
    | none => []
    | some ip =>
      match env.tfId with
      | none => []
      | some _ =>
        if env.httpOk then
          if env.domain = "" ∨ env.zoneId = "" then []
          else Action.updateDNS env.domain ip :: cleanupOld env old region
        else []

/-- String-level `update_tfvars` (lines 282-297): no region validation at
all — the file is overwritten for any argument and `ValueError` is never
raised. -/
def update_tfvars (region : String) (now : Nat)
    (_prior : List (String × String)) : Except String (List (String × String)) :=
  .ok (tfvarsContent region now)

/-- String-level `remove_security_groups` (lines 256-279): no region
validation — the groups returned by `find_old_sgs` are deleted for any
argument and `ValueError` is never raised. -/
def remove_security_groups (region : String) (sgs : String → List String) :
    Except String (List String) :=
  .ok (sgs region)

end RedeployInteractive

/-!  `wait_for_http_ok` (identical control flow in all variants, e.g.
`redeploy_auto.py` lines 362-389): `for attempt in range(1, max_attempts+1)`,
probe the URL, return `True` on status 200, otherwise sleep and continue;
after the loop return `False`.  `probe i` is the outcome of the request on
attempt `i` (`none` = a caught `RequestException`).  -/

/-- The polling loop: `attempt` is the next attempt number, `fuel` the number
of attempts left.  Returns the result and the number of probes made. -/
def httpGo (probe : Nat → Option Nat) (attempt fuel : Nat) : Bool × Nat :=
  match fuel with
  | 0 => (false, 0)
  | fuel' + 1 =>
    if probe attempt = some 200 then (true, 1)
    else
      let r := httpGo probe (attempt + 1) fuel'
      (r.1, r.2 + 1)

/-- `wait_for_http_ok`: result of the polling loop started at attempt 1. -/
def wait_for_http_ok (probe : Nat → Option Nat) (maxAttempts : Nat) : Bool :=
  (httpGo probe 1 maxAttempts).1

/-- Number of HTTP probes `wait_for_http_ok` makes. -/
def probesMade (probe : Nat → Option Nat) (maxAttempts : Nat) : Nat :=
  (httpGo probe 1 maxAttempts).2

/-!  Concrete environments used to instantiate the theorems below.  -/

/-- All three fetches succeed (finite intensities, minimum in `eu-west-2`),
no existing instances or security groups, Terraform outputs present, health
check passes, DNS configured. -/
def envFinite : Env :=
  ⟨fun r => match r with
    | .euWest1 => ((300 : ℚ) : Intensity)
    | .euWest2 => ((200 : ℚ) : Intensity)
    | .euCentral1 => ((250 : ℚ) : Intensity),
   fun _ => [], fun _ => [], some "10.0.0.1", some "i-new", true,
   "myapp.example.com", "Z123"⟩

/-- The fetch for `eu-west-1` fails (`float('inf')`), the others succeed. -/
def envInf : Env :=
  ⟨fun r => match r with
    | .euWest1 => (⊤ : Intensity)
    | .euWest2 => ((200 : ℚ) : Intensity)
    | .euCentral1 => ((250 : ℚ) : Intensity),
   fun _ => [], fun _ => [], some "10.0.0.1", some "i-new", true,
   "myapp.example.com", "Z123"⟩

/-- Minimum intensity in `eu-west-1`; one running instance in `eu-west-2`;
one orphaned `myapp_sg_*` group in `eu-west-1`; Terraform outputs present;
the health check fails; DNS configured. -/
def envStale : Env :=
  ⟨fun r => match r with
    | .euWest1 => ((100 : ℚ) : Intensity)
    | .euWest2 => ((200 : ℚ) : Intensity)
    | .euCentral1 => ((300 : ℚ) : Intensity),
   fun r => match r with
    | .euWest2 => ["i-2"]
    | _ => [],
   fun r => match r with
    | .euWest1 => ["sg-old"]
    | _ => [],
   some "10.0.0.1", some "i-new", false, "myapp.example.com", "Z123"⟩

/-- Like `envStale` but the health check passes and the DNS configuration is
absent (empty domain and hosted-zone ID). -/
def envNoDns : Env :=
  ⟨fun r => match r with
    | .euWest1 => ((100 : ℚ) : Intensity)
    | .euWest2 => ((200 : ℚ) : Intensity)
    | .euCentral1 => ((300 : ℚ) : Intensity),
   fun r => match r with
    | .euWest2 => ["i-2"]
    | _ => [],
   fun r => match r with
    | .euWest1 => ["sg-old"]
    | _ => [],
   some "10.0.0.1", some "i-new", true, "", ""⟩

/-- Like `envStale` but the instance already runs in the minimum-intensity
region `eu-west-1`. -/
def envAlreadyBest : Env :=
  ⟨fun r => match r with
    | .euWest1 => ((100 : ℚ) : Intensity)
    | .euWest2 => ((200 : ℚ) : Intensity)
    | .euCentral1 => ((300 : ℚ) : Intensity),
   fun r => match r with
    | .euWest1 => ["i-1"]
    | _ => [],
   fun r => match r with
    | .euWest1 => ["sg-old"]
    | _ => [],
   some "10.0.0.1", some "i-new", true, "myapp.example.com", "Z123"⟩

/-- An HTTP probe that yields status 200 on the third attempt and a
connection error (`none`) before. -/
def probeThird (i : Nat) : Option Nat := if i = 3 then some 200 else none

/-- An HTTP probe that never yields status 200. -/
def probeNever (_ : Nat) : Option Nat := some 503

/-!  Helper lemmas.  -/

/-- The scanned minimum is no larger than the starting element. -/
theorem minByKey_le_init {α β : Type} [LinearOrder β] (f : α → β)
    (l : List α) : ∀ best : α, f (minByKey f best l) ≤ f best := by
  induction l with
  | nil => intro best; exact le_refl _
  | cons r rest ih =>
    intro best
    simp only [minByKey]
    by_cases h : f r < f best
    · simp only [if_pos h]
      exact le_trans (ih r) (le_of_lt h)
    · simp only [if_neg h]
      exact ih best

/-- The scanned minimum is no larger than any scanned element. -/
theorem minByKey_le_mem {α β : Type} [LinearOrder β] (f : α → β)
    (l : List α) : ∀ best r : α, r ∈ l → f (minByKey f best l) ≤ f r := by
  induction l with
  | nil => intro best r h; cases h
  | cons a rest ih =>
    intro best r h
    simp only [minByKey]
    rcases List.mem_cons.mp h with rfl | hr
    · by_cases hlt : f r < f best
      · simp only [if_pos hlt]
        exact minByKey_le_init f rest r
      · simp only [if_neg hlt]
        exact le_trans (minByKey_le_init f rest best) (le_of_not_lt hlt)
    · by_cases hlt : f a < f best
      · simp only [if_pos hlt]
        exact ih a r hr
      · simp only [if_neg hlt]
        exact ih best r hr

/-- The `api_accessible` flag is `True` exactly when no fetch returned
`float('inf')`. -/
theorem apiAccessible_iff (env : Env) :
    RedeployAuto.apiAccessible env = true ↔ ∀ r : Region, env.intensity r ≠ ⊤ := by
  simp only [RedeployAuto.apiAccessible, regionList, List.foldl_cons, List.foldl_nil]
  constructor
  · intro h r hh
    cases r <;> simp [hh] at h
  · intro h
    simp [h Region.euWest1, h Region.euWest2, h Region.euCentral1]

/-- Actions of `cleanup_security_groups` are deletions of the region's
groups. -/
theorem mem_cleanup_security_groups (env : Env) (r : Region) (a : Action)
    (h : a ∈ RedeployAuto.cleanup_security_groups env r) :
    ∃ sg, a = Action.deleteSG sg r := by
  simp only [RedeployAuto.cleanup_security_groups] at h
  split_ifs at h with hsg
  · simp at h
  · simp only [List.mem_map] at h
    obtain ⟨sg, -, rfl⟩ := h
    exact ⟨sg, rfl⟩

/-- Every action of `cleanup_old_instances` terminates an instance or
deletes a security group of an old region different from `current`. -/
theorem mem_cleanup_old_instances (env : Env) (old : List (Region × List String))
    (current : Region) (a : Action)
    (h : a ∈ RedeployAuto.cleanup_old_instances env old current) :
    ∃ p, p ∈ old ∧ p.1 ≠ current ∧
      ((∃ inst, a = Action.terminate inst p.1) ∨ (∃ sg, a = Action.deleteSG sg p.1)) := by
  simp only [RedeployAuto.cleanup_old_instances, List.mem_flatMap] at h
  obtain ⟨p, hp, hmem⟩ := h
  split_ifs at hmem with hpc
  · simp at hmem
  · simp only [List.mem_flatMap, List.mem_cons] at hmem
    obtain ⟨i, -, hcase⟩ := hmem
    rcases hcase with rfl | hmem2
    · exact ⟨p, hp, hpc, Or.inl ⟨i, rfl⟩⟩
    · obtain ⟨sg, rfl⟩ := mem_cleanup_security_groups env p.1 a hmem2
      exact ⟨p, hp, hpc, Or.inr ⟨sg, rfl⟩⟩

/-- Actions of `handle_no_old_instances` are security-group deletions. -/
theorem mem_handle_no_old_instances (env : Env) (a : Action)
    (h : a ∈ RedeployAuto.handle_no_old_instances env) :
    ∃ sg r, a = Action.deleteSG sg r := by
  simp only [RedeployAuto.handle_no_old_instances, List.mem_flatMap] at h
  obtain ⟨r, -, hmem⟩ := h
  split_ifs at hmem with hsg
  · simp at hmem
  · simp only [List.mem_map] at hmem
    obtain ⟨sg, -, rfl⟩ := hmem
    exact ⟨sg, r, rfl⟩

/-- Every action of the `redeploy-auto.py` termination loop terminates an
instance or deletes a security group of an old region other than `chosen`. -/
theorem mem_terminationLoop (env : Env) (old : List (Region × List String))
    (chosen : Region) (a : Action)
    (h : a ∈ RedeployAutoHyphen.terminationLoop env old chosen) :
    ∃ p, p ∈ old ∧ p.1 ≠ chosen ∧
      ((∃ inst, a = Action.terminate inst p.1) ∨ (∃ sg, a = Action.deleteSG sg p.1)) := by
  simp only [RedeployAutoHyphen.terminationLoop, List.mem_flatMap] at h
  obtain ⟨p, hp, hmem⟩ := h
  split_ifs at hmem with hpc
  · simp only [List.mem_flatMap, List.mem_cons] at hmem
    obtain ⟨i, -, hcase⟩ := hmem
    rcases hcase with rfl | hmem2
    · exact ⟨p, hp, hpc, Or.inl ⟨i, rfl⟩⟩
    · simp only [List.mem_map] at hmem2
      obtain ⟨sg, -, rfl⟩ := hmem2
      exact ⟨p, hp, hpc, Or.inr ⟨sg, rfl⟩⟩
  · simp at hmem

/-- Every action of the `redeploy_interactive.py` cleanup loop terminates an
instance or deletes a security group of an old region other than `region`. -/
theorem mem_cleanupOld (env : Env) (old : List (Region × List String))
    (region : Region) (a : Action)
    (h : a ∈ RedeployInteractive.cleanupOld env old region) :
    ∃ p, p ∈ old ∧ p.1 ≠ region ∧
      ((∃ inst, a = Action.terminate inst p.1) ∨ (∃ sg, a = Action.deleteSG sg p.1)) := by
  simp only [RedeployInteractive.cleanupOld, List.mem_flatMap] at h
  obtain ⟨p, hp, hmem⟩ := h
  split_ifs at hmem with hpc
  · simp only [List.mem_flatMap, List.mem_cons] at hmem
    obtain ⟨i, -, hcase⟩ := hmem
    rcases hcase with rfl | hmem2
    · exact ⟨p, hp, hpc, Or.inl ⟨i, rfl⟩⟩
    · simp only [List.mem_map] at hmem2
      obtain ⟨sg, -, rfl⟩ := hmem2
      exact ⟨p, hp, hpc, Or.inr ⟨sg, rfl⟩⟩
  · simp at hmem

/-- When the health check fails, `redeploy_auto.py`'s `deploy_to_region`
performs only the tfvars write and the Terraform run. -/
theorem auto_deploy_to_region_health_fail (env : Env) (region : Region)
    (old : List (Region × List String)) (h : env.httpOk = false) :
    RedeployAuto.deploy_to_region env region old =
      [Action.updateTfvars region, Action.runTerraform region] := by
  simp only [RedeployAuto.deploy_to_region]
  cases hIp : env.tfIp <;> cases hId : env.tfId <;> simp [h]

/-- When the health check fails, `redeploy_interactive.py`'s
`deploy_to_region` performs only the tfvars write and the Terraform run. -/
theorem interactive_deploy_to_region_health_fail (env : Env) (region : Region)
    (old : List (Region × List String)) (h : env.httpOk = false) :
    RedeployInteractive.deploy_to_region env region old =
      [Action.updateTfvars region, Action.runTerraform region] := by
  simp only [RedeployInteractive.deploy_to_region]
  cases hIp : env.tfIp <;> cases hId : env.tfId <;> simp [h]

/-- When the health check fails, the `redeploy-auto.py` post-provisioning
tail is empty. -/
theorem hyphen_postProvision_health_fail (env : Env) (extra : List Action)
    (h : env.httpOk = false) :
    RedeployAutoHyphen.postProvision env extra = [] := by
  simp only [RedeployAutoHyphen.postProvision]
  cases hIp : env.tfIp <;> simp [h]

/-- Classification of the actions of a `redeploy-auto.py` run whose health
check fails: only carbon queries, the tfvars write, SG deletions in the
chosen region (from `run_terraform`), and the Terraform run itself occur. -/
theorem hyphen_deploy_health_fail_members (env : Env) (h : env.httpOk = false) :
    ∀ a ∈ RedeployAutoHyphen.deploy env,
      a.isQuery = true ∨
      a = Action.updateTfvars (RedeployAutoHyphen.find_best_region env.intensity) ∨
      a = Action.runTerraform (RedeployAutoHyphen.find_best_region env.intensity) ∨
      ∃ sg, a = Action.deleteSG sg (RedeployAutoHyphen.find_best_region env.intensity) := by
  intro a ha
  simp only [RedeployAutoHyphen.deploy] at ha
  split_ifs at ha with hany
  · simp only [List.mem_map] at ha
    obtain ⟨r, -, rfl⟩ := ha
    exact Or.inl rfl
  · split at ha
    · rw [hyphen_postProvision_health_fail env [] h, List.append_nil] at ha
      rcases List.mem_append.mp ha with hq | hr
      · obtain ⟨r, -, rfl⟩ := List.mem_map.mp hq
        exact Or.inl rfl
      · rcases List.mem_cons.mp hr with rfl | hr2
        · exact Or.inr (Or.inl rfl)
        · simp only [RedeployAutoHyphen.run_terraform] at hr2
          rcases List.mem_append.mp hr2 with hsg | hrt
          · obtain ⟨sg, -, rfl⟩ := List.mem_map.mp hsg
            exact Or.inr (Or.inr (Or.inr ⟨sg, rfl⟩))
          · rcases List.mem_singleton.mp hrt with rfl
            exact Or.inr (Or.inr (Or.inl rfl))
    · split_ifs at ha with hcb
      · rcases List.mem_append.mp ha with hq | hq <;>
          obtain ⟨-, -, rfl⟩ := List.mem_map.mp hq <;> exact Or.inl rfl
      · rw [hyphen_postProvision_health_fail env _ h, List.append_nil] at ha
        rcases List.mem_append.mp ha with hq | hr
        · rcases List.mem_append.mp hq with hq2 | hq2 <;>
            obtain ⟨-, -, rfl⟩ := List.mem_map.mp hq2 <;> exact Or.inl rfl
        · rcases List.mem_cons.mp hr with rfl | hr2
          · exact Or.inr (Or.inl rfl)
          · simp only [RedeployAutoHyphen.run_terraform] at hr2
            rcases List.mem_append.mp hr2 with hsg | hrt
            · obtain ⟨sg, -, rfl⟩ := List.mem_map.mp hsg
              exact Or.inr (Or.inr (Or.inr ⟨sg, rfl⟩))
            · rcases List.mem_singleton.mp hrt with rfl
              exact Or.inr (Or.inr (Or.inl rfl))

/-- No action of `redeploy_auto.py`'s `deploy_to_region` is a carbon
query. -/
theorem auto_deploy_to_region_no_query (env : Env) (region : Region)
    (old : List (Region × List String)) :
    ∀ a ∈ RedeployAuto.deploy_to_region env region old, a.isQuery = false := by
  intro a ha
  simp only [RedeployAuto.deploy_to_region, List.mem_cons] at ha
  rcases ha with rfl | rfl | ha
  · rfl
  · rfl
  · split at ha
    · split_ifs at ha with hH hdns hold
      · simp at ha
      · rcases List.mem_cons.mp ha with rfl | ha2
        · rfl
        · obtain ⟨sg, r, rfl⟩ := mem_handle_no_old_instances env a ha2
          rfl
      · rcases List.mem_cons.mp ha with rfl | ha2
        · rfl
        · obtain ⟨p, -, -, hsh⟩ := mem_cleanup_old_instances env old region a ha2
          rcases hsh with ⟨inst, rfl⟩ | ⟨sg, rfl⟩ <;> rfl
      · simp at ha
    · simp at ha

/-- `countP` of queries distributes over append. -/
theorem countQueries_append (l1 l2 : List Action) :
    countQueries (l1 ++ l2) = countQueries l1 + countQueries l2 :=
  List.countP_append _ l1 l2

/-- A trace without query actions has query count zero. -/
theorem countQueries_eq_zero {l : List Action}
    (h : ∀ a ∈ l, a.isQuery = false) : countQueries l = 0 :=
  List.countP_eq_zero.mpr fun a ha => by simp [h a ha]

/-- A list of queries built by `map` has one query per element. -/
theorem countQueries_queryMap {α : Type} (f : α → String) (l : List α) :
    countQueries (l.map fun x => Action.queryCarbon (f x)) = l.length := by
  simp [countQueries, List.countP_map, Function.comp, Action.isQuery]

/-- No action of the hyphen variant's `run_terraform` is a carbon query. -/
theorem run_terraform_no_query (env : Env) (r : Region) :
    ∀ a ∈ RedeployAutoHyphen.run_terraform env r, a.isQuery = false := by
  intro a ha
  simp only [RedeployAutoHyphen.run_terraform, List.mem_append, List.mem_map,
    List.mem_singleton] at ha
  rcases ha with ⟨sg, -, rfl⟩ | rfl <;> rfl

/-- No action of the hyphen variant's termination loop is a carbon query. -/
theorem terminationLoop_no_query (env : Env) (old : List (Region × List String))
    (chosen : Region) :
    ∀ a ∈ RedeployAutoHyphen.terminationLoop env old chosen, a.isQuery = false := by
  intro a ha
  obtain ⟨p, -, -, hsh⟩ := mem_terminationLoop env old chosen a ha
  rcases hsh with ⟨i, rfl⟩ | ⟨sg, rfl⟩ <;> rfl

/-- No action of the hyphen variant's post-provisioning tail is a carbon
query, provided the extra cleanup actions are not. -/
theorem postProvision_no_query (env : Env) (extra : List Action)
    (hextra : ∀ a ∈ extra, a.isQuery = false) :
    ∀ a ∈ RedeployAutoHyphen.postProvision env extra, a.isQuery = false := by
  intro a ha
  simp only [RedeployAutoHyphen.postProvision] at ha
  split at ha
  · split_ifs at ha with hH hdns
    · rcases List.mem_append.mp ha with hd | he
      · rcases List.mem_singleton.mp hd with rfl
        rfl
      · exact hextra a he
    · rcases List.mem_append.mp ha with hd | he
      · simp at hd
      · exact hextra a he
    · simp at ha
  · simp at ha

/-!  Claim theorems.  -/

/-- C1: for every assignment of fetched carbon intensities to the three
regions, the region selected by `find_best_region` — and the `best_region`
computed in `deploy` when the API is reachable — has a carbon intensity less
than or equal to that of every other region in the mapping. -/
theorem selected_region_has_minimal_intensity :
    (∀ (f : Region → Intensity) (r : Region),
      f (RedeployAuto.find_best_region f) ≤ f r) ∧
    (∀ (env : Env) (r : Region), RedeployAuto.apiAccessible env = true →
      env.intensity (RedeployAuto.bestRegion env) ≤ env.intensity r) := by
  have key : ∀ (f : Region → Intensity) (r : Region),
      f (minByKey f Region.euWest1 [Region.euWest2, Region.euCentral1]) ≤ f r := by
    intro f r
    cases r with
    | euWest1 => exact minByKey_le_init f _ _
    | euWest2 => exact minByKey_le_mem f _ _ _ (by simp)
    | euCentral1 => exact minByKey_le_mem f _ _ _ (by simp)
  refine ⟨fun f r => key f r, fun env r h => ?_⟩
  simp only [RedeployAuto.bestRegion, h, if_true]
  exact key env.intensity r

/-- Witness for C1 at a concrete environment with reachable API. -/
theorem selected_region_has_minimal_intensity_witness :
    RedeployAuto.apiAccessible envFinite = true ∧
    envFinite.intensity (RedeployAuto.bestRegion envFinite) ≤
      envFinite.intensity Region.euWest1 ∧
    envFinite.intensity (RedeployAuto.find_best_region envFinite.intensity) ≤
      envFinite.intensity Region.euCentral1 :=
  ⟨by decide,
   selected_region_has_minimal_intensity.2 envFinite Region.euWest1 (by decide),
   selected_region_has_minimal_intensity.1 envFinite.intensity Region.euCentral1⟩

/-- C8: in the non-interactive `deploy`, if some carbon fetch failed
(returned `float('inf')`), the target region is the fixed default
`eu-west-2`; only when all three fetches are finite is the minimum taken. -/
theorem api_failure_falls_back_to_default :
    ∀ env : Env,
      ((∃ r : Region, env.intensity r = ⊤) →
        RedeployAuto.bestRegion env = Region.euWest2) ∧
      ((∀ r : Region, env.intensity r ≠ ⊤) →
        RedeployAuto.bestRegion env = RedeployAuto.find_best_region env.intensity) := by
  intro env
  constructor
  · rintro ⟨r, hr⟩
    have hfalse : RedeployAuto.apiAccessible env = false := by
      rcases Bool.eq_false_or_eq_true (RedeployAuto.apiAccessible env) with h | h
      · exact absurd hr ((apiAccessible_iff env).mp h r)
      · exact h
    simp [RedeployAuto.bestRegion, hfalse]
  · intro hall
    have htrue : RedeployAuto.apiAccessible env = true := (apiAccessible_iff env).mpr hall
    simp [RedeployAuto.bestRegion, htrue, RedeployAuto.find_best_region]

/-- Witness for C8: with the `eu-west-1` fetch failed the target is the
default `eu-west-2`; with all fetches finite the minimum is taken. -/
theorem api_failure_falls_back_to_default_witness :
    RedeployAuto.bestRegion envInf = Region.euWest2 ∧
    RedeployAuto.bestRegion envFinite = RedeployAuto.find_best_region envFinite.intensity :=
  ⟨(api_failure_falls_back_to_default envInf).1 ⟨Region.euWest1, by decide⟩,
   (api_failure_falls_back_to_default envFinite).2 (by decide)⟩

/-- The polling loop makes at most `fuel` probes. -/
theorem httpGo_snd_le (p : Nat → Option Nat) :
    ∀ (fuel a : Nat), (httpGo p a fuel).2 ≤ fuel := by
  intro fuel
  induction fuel with
  | zero => intro a; simp [httpGo]
  | succ n ih =>
    intro a
    by_cases h : p a = some 200
    · simp [httpGo, h]
    · simp only [httpGo, if_neg h]
      have := ih (a + 1)
      omega

/-- The polling loop succeeds exactly when some attempt in its window yields
status 200. -/
theorem httpGo_fst_iff (p : Nat → Option Nat) :
    ∀ (fuel a : Nat), (httpGo p a fuel).1 = true ↔
      ∃ i, a ≤ i ∧ i < a + fuel ∧ p i = some 200 := by
  intro fuel
  induction fuel with
  | zero =>
    intro a
    constructor
    · intro h; simp [httpGo] at h
    · rintro ⟨i, h1, h2, -⟩; omega
  | succ n ih =>
    intro a
    by_cases h : p a = some 200
    · simp only [httpGo, if_pos h]
      exact ⟨fun _ => ⟨a, le_refl a, by omega, h⟩, fun _ => trivial⟩
    · constructor
      · intro ht
        have hin : (httpGo p (a + 1) n).1 = true := by
          simpa [httpGo, h] using ht
        obtain ⟨i, h1, h2, h3⟩ := (ih (a + 1)).mp hin
        exact ⟨i, by omega, by omega, h3⟩
      · rintro ⟨i, h1, h2, h3⟩
        have hne : i ≠ a := fun e => h (e ▸ h3)
        have hin : (httpGo p (a + 1) n).1 = true :=
          (ih (a + 1)).mpr ⟨i, by omega, by omega, h3⟩
        simpa [httpGo, h] using hin

/-- When every attempt in the window fails, the loop exhausts its fuel and
returns `False`. -/
theorem httpGo_all_fail (p : Nat → Option Nat) :
    ∀ (fuel a : Nat), (∀ i, a ≤ i → i < a + fuel → p i ≠ some 200) →
      httpGo p a fuel = (false, fuel) := by
  intro fuel
  induction fuel with
  | zero => intro a _; simp [httpGo]
  | succ n ih =>
    intro a hall
    have h : p a ≠ some 200 := hall a (le_refl a) (by omega)
    have hrec : httpGo p (a + 1) n = (false, n) :=
      ih (a + 1) fun i h1 h2 => hall i (by omega) (by omega)
    simp [httpGo, if_neg h, hrec]

/-- On success, the last probe made is the succeeding one and every earlier
probe in the window failed. -/
theorem httpGo_stops (p : Nat → Option Nat) :
    ∀ (fuel a : Nat), (httpGo p a fuel).1 = true →
      p (a + (httpGo p a fuel).2 - 1) = some 200 ∧
      ∀ k, a ≤ k → k < a + (httpGo p a fuel).2 - 1 → p k ≠ some 200 := by
  intro fuel
  induction fuel with
  | zero => intro a h; simp [httpGo] at h
  | succ n ih =>
    intro a ht
    by_cases h : p a = some 200
    · refine ⟨by simp [httpGo, h], ?_⟩
      intro k hk1 hk2
      simp [httpGo, h] at hk2
      omega
    · have hin : (httpGo p (a + 1) n).1 = true := by
        simpa [httpGo, h] using ht
      obtain ⟨hsucc, hprev⟩ := ih (a + 1) hin
      have hsnd : (httpGo p a (n + 1)).2 = (httpGo p (a + 1) n).2 + 1 := by
        simp [httpGo, if_neg h]
      refine ⟨?_, ?_⟩
      · rw [hsnd]
        have : a + ((httpGo p (a + 1) n).2 + 1) - 1 =
            a + 1 + (httpGo p (a + 1) n).2 - 1 := by omega
        rw [this]
        exact hsucc
      · intro k hk1 hk2
        rw [hsnd] at hk2
        rcases Nat.eq_or_lt_of_le hk1 with rfl | hk
        · exact h
        · exact hprev k (by omega) (by omega)

/-- C4: `wait_for_http_ok` is a retry-free bounded loop: it makes at most
`maxAttempts` probes (20 by default), returns `True` exactly when some probe
in attempts `1..maxAttempts` yields HTTP 200 — stopping at the first such
probe — and after exhausting all attempts returns `False`. -/
theorem http_poll_bounded :
    ∀ (probe : Nat → Option Nat) (maxAttempts : Nat),
      probesMade probe maxAttempts ≤ maxAttempts ∧
      (wait_for_http_ok probe maxAttempts = true ↔
        ∃ i, 1 ≤ i ∧ i ≤ maxAttempts ∧ probe i = some 200) ∧
      ((∀ i, 1 ≤ i → i ≤ maxAttempts → probe i ≠ some 200) →
        wait_for_http_ok probe maxAttempts = false ∧
        probesMade probe maxAttempts = maxAttempts) ∧
      (wait_for_http_ok probe maxAttempts = true →
        probe (probesMade probe maxAttempts) = some 200 ∧
        ∀ k, 1 ≤ k → k < probesMade probe maxAttempts → probe k ≠ some 200) := by
  intro probe maxAttempts
  refine ⟨httpGo_snd_le probe maxAttempts 1, ?_, ?_, ?_⟩
  · rw [wait_for_http_ok, httpGo_fst_iff]
    constructor
    · rintro ⟨i, h1, h2, h3⟩; exact ⟨i, h1, by omega, h3⟩
    · rintro ⟨i, h1, h2, h3⟩; exact ⟨i, h1, by omega, h3⟩
  · intro hall
    have := httpGo_all_fail probe maxAttempts 1
      (fun i h1 h2 => hall i h1 (by omega))
    constructor
    · rw [wait_for_http_ok, this]
    · rw [probesMade, this]
  · intro ht
    obtain ⟨hsucc, hprev⟩ := httpGo_stops probe maxAttempts 1 ht
    have harith : 1 + (httpGo probe 1 maxAttempts).2 - 1 =
        (httpGo probe 1 maxAttempts).2 := by omega
    rw [harith] at hsucc hprev
    exact ⟨hsucc, fun k hk1 hk2 => hprev k hk1 hk2⟩

/-- C3: the cleanup step — `cleanup_old_instances` in `redeploy_auto.py`,
the termination loop of `redeploy-auto.py`'s `deploy`, and the cleanup loop
of `redeploy_interactive.py`'s `deploy_to_region` — terminates instances and
removes security groups only in regions different from the current region;
resources in the region just deployed to are never touched by cleanup. -/
theorem cleanup_spares_current_region :
    ∀ (env : Env) (old : List (Region × List String)) (current : Region)
      (x : String) (r : Region),
      ((Action.terminate x r ∈ RedeployAuto.cleanup_old_instances env old current ∨
        Action.deleteSG x r ∈ RedeployAuto.cleanup_old_instances env old current) →
        r ≠ current) ∧
      ((Action.terminate x r ∈ RedeployAutoHyphen.terminationLoop env old current ∨
        Action.deleteSG x r ∈ RedeployAutoHyphen.terminationLoop env old current) →
        r ≠ current) ∧
      ((Action.terminate x r ∈ RedeployInteractive.cleanupOld env old current ∨
        Action.deleteSG x r ∈ RedeployInteractive.cleanupOld env old current) →
        r ≠ current) := by
  intro env old current x r
  refine ⟨?_, ?_, ?_⟩
  · rintro (h | h)
    · obtain ⟨p, -, hpc, hsh⟩ := mem_cleanup_old_instances env old current _ h
      rcases hsh with ⟨inst, heq⟩ | ⟨sg, heq⟩
      · cases heq; exact hpc
      · cases heq
    · obtain ⟨p, -, hpc, hsh⟩ := mem_cleanup_old_instances env old current _ h
      rcases hsh with ⟨inst, heq⟩ | ⟨sg, heq⟩
      · cases heq
      · cases heq; exact hpc
  · rintro (h | h)
    · obtain ⟨p, -, hpc, hsh⟩ := mem_terminationLoop env old current _ h
      rcases hsh with ⟨inst, heq⟩ | ⟨sg, heq⟩
      · cases heq; exact hpc
      · cases heq
    · obtain ⟨p, -, hpc, hsh⟩ := mem_terminationLoop env old current _ h
      rcases hsh with ⟨inst, heq⟩ | ⟨sg, heq⟩
      · cases heq
      · cases heq; exact hpc
  · rintro (h | h)
    · obtain ⟨p, -, hpc, hsh⟩ := mem_cleanupOld env old current _ h
      rcases hsh with ⟨inst, heq⟩ | ⟨sg, heq⟩
      · cases heq; exact hpc
      · cases heq
    · obtain ⟨p, -, hpc, hsh⟩ := mem_cleanupOld env old current _ h
      rcases hsh with ⟨inst, heq⟩ | ⟨sg, heq⟩
      · cases heq
      · cases heq; exact hpc

/-- Witness for C3: a termination emitted by cleanup for an old deployment
in `eu-west-2` while the current region is `eu-west-1`. -/
theorem cleanup_spares_current_region_witness :
    (Action.terminate "i-2" Region.euWest2 ∈
      RedeployAuto.cleanup_old_instances envStale
        [(Region.euWest2, ["i-2"])] Region.euWest1) ∧
    Region.euWest2 ≠ Region.euWest1 :=
  ⟨by decide,
   (cleanup_spares_current_region envStale [(Region.euWest2, ["i-2"])]
      Region.euWest1 "i-2" Region.euWest2).1 (Or.inl (by decide))⟩

/-- C2 counterexample: in `redeploy-auto.py` the run with a failing health
check still deletes a preexisting security group — `run_terraform` removes
the target region's `myapp_sg_*` groups before the health check — so the
claim that no security group is deleted after a failed health poll is false
for that cited variant. -/
theorem health_failure_cx :
    envStale.httpOk = false ∧
    Action.deleteSG "sg-old" Region.euWest1 ∈ RedeployAutoHyphen.deploy envStale :=
  ⟨rfl, by decide⟩

/-- C2 (amended): when the health poll fails, `redeploy_auto.py`'s and
`redeploy_interactive.py`'s `deploy_to_region` perform nothing beyond the
tfvars write and the Terraform run (no termination, no SG deletion), and
`redeploy-auto.py`'s `deploy` terminates no instance and deletes security
groups only in the target region itself (those deletions having happened
inside `run_terraform`, before the health check). -/
theorem health_failure_leaves_old_deployments :
    ∀ (env : Env) (region : Region) (old : List (Region × List String)),
      env.httpOk = false →
      RedeployAuto.deploy_to_region env region old =
        [Action.updateTfvars region, Action.runTerraform region] ∧
      RedeployInteractive.deploy_to_region env region old =
        [Action.updateTfvars region, Action.runTerraform region] ∧
      (∀ x r, Action.terminate x r ∉ RedeployAutoHyphen.deploy env) ∧
      (∀ sg r, Action.deleteSG sg r ∈ RedeployAutoHyphen.deploy env →
        r = RedeployAutoHyphen.find_best_region env.intensity) := by
  intro env region old h
  refine ⟨auto_deploy_to_region_health_fail env region old h,
    interactive_deploy_to_region_health_fail env region old h, ?_, ?_⟩
  · intro x r hmem
    rcases hyphen_deploy_health_fail_members env h _ hmem with hq | heq | heq | ⟨sg, heq⟩
    · simp [Action.isQuery] at hq
    · simp at heq
    · simp at heq
    · simp at heq
  · intro sg r hmem
    rcases hyphen_deploy_health_fail_members env h _ hmem with hq | heq | heq | ⟨sg2, heq⟩
    · simp [Action.isQuery] at hq
    · simp at heq
    · simp at heq
    · exact Action.noConfusion heq fun h1 h2 => h2

/-- Witness for C2 (amended) on a concrete failing-health run. -/
theorem health_failure_leaves_old_deployments_witness :
    envStale.httpOk = false ∧
    RedeployAuto.deploy_to_region envStale Region.euWest1 [(Region.euWest2, ["i-2"])] =
      [Action.updateTfvars Region.euWest1, Action.runTerraform Region.euWest1] ∧
    Action.terminate "i-2" Region.euWest2 ∉ RedeployAutoHyphen.deploy envStale :=
  ⟨rfl,
   (health_failure_leaves_old_deployments envStale Region.euWest1
      [(Region.euWest2, ["i-2"])] rfl).1,
   (health_failure_leaves_old_deployments envStale Region.euWest1
      [(Region.euWest2, ["i-2"])] rfl).2.2.1 "i-2" Region.euWest2⟩

/-- C9: when the selected target region already holds a running tagged
instance, `deploy` returns immediately: the whole run consists of the three
carbon queries — `terraform.tfvars` is not rewritten, Terraform is not
invoked, and no instance or security group is terminated or deleted. -/
theorem deploy_already_best_is_noop :
    ∀ env : Env,
      ((RedeployAuto.deploymentsMap env).any
          (fun p => p.1 = RedeployAuto.bestRegion env) = true →
        RedeployAuto.deploy env = regionList.map fun r => Action.queryCarbon r.zone) ∧
      ((RedeployAutoHyphen.deploymentsMap env).any
          (fun p => p.1 = RedeployAutoHyphen.find_best_region env.intensity) = true →
        RedeployAutoHyphen.deploy env = regionList.map fun r => Action.queryCarbon r.zone) := by
  intro env
  constructor
  · intro h
    simp only [RedeployAuto.deploy, h, if_true]
  · intro h
    simp only [RedeployAutoHyphen.deploy, h, if_true]

/-- Witness for C9 at an environment whose instance already runs in the
minimum-intensity region. -/
theorem deploy_already_best_is_noop_witness :
    ((RedeployAuto.deploymentsMap envAlreadyBest).any
        (fun p => p.1 = RedeployAuto.bestRegion envAlreadyBest) = true) ∧
    RedeployAuto.deploy envAlreadyBest =
      regionList.map (fun r => Action.queryCarbon r.zone) ∧
    RedeployAutoHyphen.deploy envAlreadyBest =
      regionList.map (fun r => Action.queryCarbon r.zone) :=
  ⟨by decide,
   (deploy_already_best_is_noop envAlreadyBest).1 (by decide),
   (deploy_already_best_is_noop envAlreadyBest).2 (by decide)⟩

/-- C10: when the domain name or hosted-zone ID is unconfigured (empty),
`deploy_to_region` returns before the cleanup step: the run performs only the
tfvars write and the Terraform run, so no old instance is terminated and no
security group is deleted even when old deployments exist elsewhere. -/
theorem missing_dns_skips_cleanup :
    ∀ (env : Env) (region : Region) (old : List (Region × List String)),
      env.domain = "" ∨ env.zoneId = "" →
      RedeployAuto.deploy_to_region env region old =
        [Action.updateTfvars region, Action.runTerraform region] ∧
      RedeployInteractive.deploy_to_region env region old =
        [Action.updateTfvars region, Action.runTerraform region] := by
  intro env region old hdns
  constructor
  · simp only [RedeployAuto.deploy_to_region]
    cases hIp : env.tfIp <;> cases hId : env.tfId <;> cases hH : env.httpOk <;>
      simp [if_pos hdns]
  · simp only [RedeployInteractive.deploy_to_region]
    cases hIp : env.tfIp <;> cases hId : env.tfId <;> cases hH : env.httpOk <;>
      simp [if_pos hdns]

/-- Witness for C10: unconfigured DNS with an old deployment in another
region still yields only the tfvars write and the Terraform run. -/
theorem missing_dns_skips_cleanup_witness :
    (envNoDns.domain = "" ∨ envNoDns.zoneId = "") ∧
    RedeployAuto.deploy_to_region envNoDns Region.euWest1 [(Region.euWest2, ["i-2"])] =
      [Action.updateTfvars Region.euWest1, Action.runTerraform Region.euWest1] ∧
    RedeployInteractive.deploy_to_region envNoDns Region.euWest1 [(Region.euWest2, ["i-2"])] =
      [Action.updateTfvars Region.euWest1, Action.runTerraform Region.euWest1] :=
  ⟨Or.inl rfl,
   (missing_dns_skips_cleanup envNoDns Region.euWest1
      [(Region.euWest2, ["i-2"])] (Or.inl rfl)).1,
   (missing_dns_skips_cleanup envNoDns Region.euWest1
      [(Region.euWest2, ["i-2"])] (Or.inl rfl)).2⟩

/-- Witness for C4 with the default 20 attempts: a probe succeeding on the
third attempt makes three probes and returns `True`; a probe that never
succeeds returns `False` after 20 probes. -/
theorem http_poll_bounded_witness :
    probesMade probeThird 20 ≤ 20 ∧
    wait_for_http_ok probeThird 20 = true ∧
    probeThird (probesMade probeThird 20) = some 200 ∧
    wait_for_http_ok probeNever 20 = false ∧
    probesMade probeNever 20 = 20 := by
  have hthird := http_poll_bounded probeThird 20
  have hnever := http_poll_bounded probeNever 20
  have ht : wait_for_http_ok probeThird 20 = true :=
    hthird.2.1.mpr ⟨3, by decide, by decide, by decide⟩
  have hfail : ∀ i, 1 ≤ i → i ≤ 20 → probeNever i ≠ some 200 := by
    intro i _ _; simp [probeNever]
  exact ⟨hthird.1, ht, (hthird.2.2.2 ht).1,
    (hnever.2.2.1 hfail).1, (hnever.2.2.1 hfail).2⟩

/-- C5 counterexample: in `redeploy-auto.py` a run with one existing
deployment in a non-chosen region issues four carbon-intensity requests, not
three — the `min` over `deployments.keys()` re-queries the API once per
deployed region. -/
theorem single_query_per_region_cx :
    countQueries (RedeployAutoHyphen.deploy envStale) = 4 ∧
    countQueries (RedeployAutoHyphen.deploy envStale) ≠ 3 := by
  constructor <;> decide

/-- C5 (amended): `redeploy_auto.py`'s `deploy` queries the API exactly once
per region — the query actions of a run are precisely the three zone fetches
`IE`, `GB`, `DE` — while `redeploy-auto.py`'s `deploy`, whenever existing
deployments are found and the chosen region holds none, issues three queries
plus one more per deployed region. -/
theorem carbon_queries_per_run :
    (∀ env : Env, (RedeployAuto.deploy env).filter (fun a => a.isQuery) =
      regionList.map fun r => Action.queryCarbon r.zone) ∧
    (∀ env : Env,
      ((RedeployAutoHyphen.deploymentsMap env).any
        (fun p => p.1 = RedeployAutoHyphen.find_best_region env.intensity)) = false →
      RedeployAutoHyphen.deploymentsMap env ≠ [] →
      countQueries (RedeployAutoHyphen.deploy env) =
        3 + (RedeployAutoHyphen.deploymentsMap env).length) := by
  constructor
  · intro env
    simp only [RedeployAuto.deploy]
    split_ifs with hany
    · rfl
    · rw [List.filter_append]
      have h2 : (RedeployAuto.deploy_to_region env (RedeployAuto.bestRegion env)
          (RedeployAuto.deploymentsMap env)).filter (fun a => a.isQuery) = [] := by
        rw [List.filter_eq_nil_iff]
        intro a ha
        simp [auto_deploy_to_region_no_query env _ _ a ha]
      rw [h2, List.append_nil]
      rfl
  · intro env hany hne
    simp only [RedeployAutoHyphen.deploy]
    rw [if_neg (by simp [hany])]
    rcases hdeps : RedeployAutoHyphen.deploymentsMap env with - | ⟨d, ds⟩
    · exact absurd hdeps hne
    · simp only []
      have hq : countQueries (regionList.map fun r => Action.queryCarbon r.zone) = 3 := rfl
      have hdq : countQueries ((d :: ds).map fun p => Action.queryCarbon p.1.zone) =
          (d :: ds).length := countQueries_queryMap (fun p => p.1.zone) (d :: ds)
      split_ifs with hcb
      · rw [countQueries_append, hq, hdq]
      · have htail : countQueries
            (Action.updateTfvars (RedeployAutoHyphen.find_best_region env.intensity) ::
              RedeployAutoHyphen.run_terraform env
                (RedeployAutoHyphen.find_best_region env.intensity)) = 0 := by
          apply countQueries_eq_zero
          intro a ha
          rcases List.mem_cons.mp ha with rfl | ha2
          · rfl
          · exact run_terraform_no_query env _ a ha2
        have hpost : countQueries
            (RedeployAutoHyphen.postProvision env
              (RedeployAutoHyphen.terminationLoop env (d :: ds)
                (RedeployAutoHyphen.find_best_region env.intensity))) = 0 :=
          countQueries_eq_zero (postProvision_no_query env _
            (terminationLoop_no_query env (d :: ds) _))
        rw [countQueries_append, countQueries_append, countQueries_append,
          hq, hdq, htail, hpost]
        omega

/-- Witness for C5 (amended) at a run of the hyphen variant with one
deployed region and at an exact-three-queries run of `redeploy_auto.py`. -/
theorem carbon_queries_per_run_witness :
    ((RedeployAutoHyphen.deploymentsMap envStale).any
      (fun p => p.1 = RedeployAutoHyphen.find_best_region envStale.intensity) = false) ∧
    RedeployAutoHyphen.deploymentsMap envStale ≠ [] ∧
    countQueries (RedeployAutoHyphen.deploy envStale) =
      3 + (RedeployAutoHyphen.deploymentsMap envStale).length ∧
    (RedeployAuto.deploy envFinite).filter (fun a => a.isQuery) =
      regionList.map (fun r => Action.queryCarbon r.zone) :=
  ⟨by decide, by decide,
   carbon_queries_per_run.2 envStale (by decide) (by decide),
   carbon_queries_per_run.1 envFinite⟩

/-- C6 counterexample: `redeploy_interactive.py`'s `update_tfvars` and
`remove_security_groups` accept the non-key region `us-east-1` without
raising `ValueError`, so the validation does not hold in every variant. -/
theorem region_validation_cx :
    "us-east-1" ∉ awsRegionKeys ∧
    exceptIsOk (RedeployInteractive.update_tfvars "us-east-1" 0 []) = true ∧
    exceptIsOk (RedeployInteractive.remove_security_groups "us-east-1" fun _ => []) = true :=
  ⟨by decide, rfl, rfl⟩

/-- C6 (amended): only `redeploy_auto.py` enforces the key invariant — its
`update_tfvars` and `remove_security_groups` raise `ValueError` exactly when
the region is not one of the three `AWS_REGIONS` keys — while the versions
in `redeploy_interactive.py`, `redeploy-auto.py` and
`redeploy-interactive.py` never validate and never raise. -/
theorem region_validation :
    ∀ (region : String) (now : Nat) (prior : List (String × String))
      (sgs : String → List String),
      (exceptIsOk (RedeployAuto.update_tfvars region now prior) = true ↔
        region ∈ awsRegionKeys) ∧
      (exceptIsOk (RedeployAuto.remove_security_groups region sgs) = true ↔
        region ∈ awsRegionKeys) ∧
      exceptIsOk (RedeployInteractive.update_tfvars region now prior) = true ∧
      exceptIsOk (RedeployInteractive.remove_security_groups region sgs) = true ∧
      exceptIsOk (RedeployAutoHyphen.update_tfvars region now prior) = true ∧
      exceptIsOk (RedeployAutoHyphen.remove_security_groups region sgs) = true ∧
      exceptIsOk (RedeployInteractiveHyphen.update_tfvars region now prior) = true ∧
      exceptIsOk (RedeployInteractiveHyphen.remove_security_groups region sgs) = true := by
  intro region now prior sgs
  refine ⟨?_, ?_, rfl, rfl, rfl, rfl, rfl, rfl⟩
  · by_cases h : region ∈ awsRegionKeys <;>
      simp [RedeployAuto.update_tfvars, h, exceptIsOk]
  · by_cases h : region ∈ awsRegionKeys <;>
      simp [RedeployAuto.remove_security_groups, h, exceptIsOk]

/-- C7: for a valid region, `update_tfvars` leaves `terraform.tfvars`
holding exactly the two entries `aws_region` (the chosen region) and
`deployment_id` (the Unix timestamp at call time), independently of the
file's prior contents. -/
theorem tfvars_overwritten_exactly :
    ∀ (region : String) (now : Nat) (prior : List (String × String)),
      region ∈ awsRegionKeys →
      RedeployAuto.update_tfvars region now prior =
        Except.ok [("aws_region", region), ("deployment_id", toString now)] ∧
      RedeployAuto.update_tfvars region now prior =
        RedeployAuto.update_tfvars region now [] := by
  intro region now prior h
  constructor
  · simp [RedeployAuto.update_tfvars, h, tfvarsContent]
  · rfl

/-- Witness for C7 at a concrete region, timestamp and nonempty prior
file. -/
theorem tfvars_overwritten_exactly_witness :
    "eu-west-1" ∈ awsRegionKeys ∧
    RedeployAuto.update_tfvars "eu-west-1" 1700000000 [("stale", "entry")] =
      Except.ok [("aws_region", "eu-west-1"), ("deployment_id", toString 1700000000)] :=
  ⟨by decide,
   (tfvars_overwritten_exactly "eu-west-1" 1700000000 [("stale", "entry")] (by decide)).1⟩

end CarbonAware
